import Mathlib

/-!
Verification development for the `audio_tutor` repository.

The definitions below are shallow embeddings of the Python source:
- the streaming sentence chunker of `server/services/CLI.py` (`session`) and
  `server/server.py` (`streaming_audio`), which are textually identical:
  per assistant fragment it appends to `response` (the full reply) and
  `chunk_response` (the pending chunk), and dispatches the pending chunk to
  speech synthesis when `re.search(r'[.!?:;]$', response)` matches;
- the voice lookup tables of `server/services/tts_service.py`;
- the finalization block (save / index / report / index report) of both
  transports, which is straight-line Python with no exception handler;
- the terminal session loop of `server/services/CLI.py`;
- the lookup helpers of `server/database/database.py`.

Text is modelled as `List Char`; a Python dict access `d[k]` is modelled as
an association-list lookup returning `Option` (`none` = `KeyError`).
-/

namespace AudioTutor

/-- The sentence-boundary character class `[.!?:;]` of the regex in
`CLI.py` line 87 / `server.py` line 92. -/
def boundaryChar (c : Char) : Bool :=
  c = '.' || c = '!' || c = '?' || c = ':' || c = ';'

/-- Helper on the reversed text: Python `re.search(r'[.!?:;]$', s)`.
In Python (no `re.MULTILINE`), `$` matches at the end of the string and
also just before a newline that is the last character, so the pattern
matches iff the text ends in a boundary character, or ends in a boundary
character followed by a single final newline. This function takes the
reversed character list. -/
def searchBoundaryDollarRev : List Char → Bool
  | [] => false
  | c :: rest =>
    boundaryChar c ||
      (c = '\n' && (match rest with
        | [] => false
        | d :: _ => boundaryChar d))

/-- Embedding of `re.search(r'[.!?:;]$', s)` as used on the accumulated
reply text (`CLI.py` line 87, `server.py` line 92). -/
def searchBoundaryDollar (s : List Char) : Bool :=
  searchBoundaryDollarRev s.reverse

/-- A reply-stream item yielded by `converse`: either an `AIMessage` with
its `content`, or any other kind of item (tool invocation, metadata),
which the `isinstance(chunk, AIMessage)` test filters out. -/
inductive StreamItem where
  | aiMsg (content : List Char)
  | other
deriving DecidableEq, Repr

/-- The chunker's per-turn state: `response` is the full reply accumulator,
`chunk_response` the pending-chunk accumulator (both named as in the
source); `emitted` records, in order, the chunks dispatched to speech
synthesis (`speak` in `CLI.py`, `ws_speak` in `server.py`). -/
structure ChunkState where
  response : List Char
  chunk_response : List Char
  emitted : List (List Char)
deriving DecidableEq, Repr

/-- The initial state at the start of a turn (`response = ""`,
`chunk_response = ""`, nothing dispatched yet). -/
def initChunkState : ChunkState := ⟨[], [], []⟩

/-- One iteration of the `for chunk, _ in converse(...)` loop body
(`CLI.py` lines 84-90, `server.py` lines 89-96): non-`AIMessage` items are
skipped; for an `AIMessage` the content is appended to both accumulators,
and if `re.search(r'[.!?:;]$', response)` matches, the pending chunk is
dispatched and reset to empty. -/
def step (st : ChunkState) (it : StreamItem) : ChunkState :=
  match it with
  | .other => st
  | .aiMsg c =>
    let resp := st.response ++ c
    let pend := st.chunk_response ++ c
    if searchBoundaryDollar resp then
      ⟨resp, [], st.emitted ++ [pend]⟩
    else
      ⟨resp, pend, st.emitted⟩

/-- Running the whole reply stream of one turn through the loop.  Note the
source has no code after the loop that dispatches a leftover
`chunk_response`: the loop ends and the next statement appends
`AIMESSAGE` to the transcript. -/
def runChunker (items : List StreamItem) : ChunkState :=
  items.foldl step initChunkState

/-- The condition of the amended boundary claim, written as stated there:
the accumulated text ends with one of `.!?:;`, or ends with one of them
followed by a single trailing newline. -/
def endsBoundaryOrBoundaryNewline (s : List Char) : Bool :=
  (match s.getLast? with
    | some c => boundaryChar c
    | none => false) ||
  ((s.getLast? = some '\n') &&
    (match s.dropLast.getLast? with
      | some d => boundaryChar d
      | none => false))

/-! ## Chunker with a fallible synthesis dispatch

`speak(chunk_response, ...)` (`CLI.py` line 89) and
`await websocket.send_bytes(ws_speak(...))` (`server.py` line 94) are called
with no surrounding `try`/`except`; an exception raised there propagates and
terminates the loop (and the whole session).  `stepE` makes the dispatch
outcome explicit: `speakRaises` says on which chunk texts the synthesis call
raises.  On a raise we return `Except.error` carrying the state at that
moment: `response` and `chunk_response` were already extended, `emitted` was
not, and the statements after `speak` (the reset of `chunk_response`) never
run. -/

/-- One loop iteration when the synthesis dispatch may raise. -/
def stepE (speakRaises : List Char → Bool) (st : ChunkState) (it : StreamItem) :
    Except ChunkState ChunkState :=
  match it with
  | .other => .ok st
  | .aiMsg c =>
    let resp := st.response ++ c
    let pend := st.chunk_response ++ c
    if searchBoundaryDollar resp then
      if speakRaises pend then
        .error ⟨resp, pend, st.emitted⟩
      else
        .ok ⟨resp, [], st.emitted ++ [pend]⟩
    else
      .ok ⟨resp, pend, st.emitted⟩

/-- Running the loop with a fallible dispatch: an exception from `speak`
aborts the remaining iterations (Python unwinds out of the `for` loop). -/
def runChunkerEFrom (speakRaises : List Char → Bool) :
    ChunkState → List StreamItem → Except ChunkState ChunkState
  | st, [] => .ok st
  | st, it :: rest =>
    match stepE speakRaises st it with
    | .error e => .error e
    | .ok st' => runChunkerEFrom speakRaises st' rest

/-- Whole-turn run with a fallible synthesis dispatch. -/
def runChunkerE (speakRaises : List Char → Bool) (items : List StreamItem) :
    Except ChunkState ChunkState :=
  runChunkerEFrom speakRaises initChunkState items

/-! ## Voice tables of `server/services/tts_service.py` -/

/-- The `voices` dict (lines 18-26): language name to ElevenLabs voice id. -/
def voices : List (String × String) :=
  [("Mandarin", "bhJUNIXWQQ94l8eI2VUf"),
   ("French", "sANWqF1bCMzR6eyZbCGw"),
   ("Spanish", "Nh2zY9kknu6z4pZy6FhD"),
   ("Japanese", "cgSgspJ2msm6clMCkdW9"),
   ("German", "z1EhmmPwF0ENGYE8dBE6"),
   ("Italian", "gfKKsLN1k0oYYN9n2dXX"),
   ("English", "JBFqnCBsd6RMkjVDRZzb")]

/-- The `language_codes` dict (lines 28-36), copied entry for entry: note
the last two entries have the language NAME as key and the BCP-47 code as
value, unlike the first five. -/
def language_codes : List (String × String) :=
  [("en-UK", "English"),
   ("fr-FR", "French"),
   ("es-ES", "Spanish"),
   ("cmn-HANS-CN", "Mandarin"),
   ("ja-JP", "Japanese"),
   ("German", "de-DE"),
   ("Italian", "it-IT")]

/-- `ws_speak` (lines 56-88) resolves `language = language_codes[language_code]`
and then `voices[language]`; `none` models a `KeyError` at either access.
The result is the voice id passed to the ElevenLabs API. -/
def ws_speak_voice (language_code : String) : Option String :=
  (language_codes.lookup language_code).bind (fun language => voices.lookup language)

/-! ## Session finalization

In `CLI.py` (lines 94-98) and `server.py` (lines 99-106) the four side
effects run as straight-line statements with no `try`/`except`:
`save_conversation`, `add_document(transcript)`, `create_report`,
`add_document(report)`.  Under Python semantics an exception raised by one
of them propagates, so the later statements never execute.  `raises e`
says whether effect `e` raises when attempted. -/

/-- The four finalization side effects, in source order. -/
inductive FinEffect where
  | save_conversation
  | add_document_transcript
  | create_report
  | add_document_report
deriving DecidableEq, Repr

/-- Straight-line execution of a sequence of effects with exception
propagation: each effect is attempted in order until one raises; the
raising effect is attempted (and appears in the result), everything after
it is not. -/
def runStraightLine (raises : FinEffect → Bool) : List FinEffect → List FinEffect
  | [] => []
  | e :: rest => e :: (if raises e then [] else runStraightLine raises rest)

/-- The effects attempted by one finalization pass of `session` /
`streaming_audio`. -/
def finalizationAttempted (raises : FinEffect → Bool) : List FinEffect :=
  runStraightLine raises
    [.save_conversation, .add_document_transcript, .create_report, .add_document_report]

/-! ## Terminal session loop of `CLI.py`

`session` (lines 76-93): each iteration transcribes an utterance, appends
`f"USERMESSAGE: {transcript} \n"` to `long_transcript`, and only then
checks `transcript.strip().lower() == "stop"`, breaking before `converse`
is called and before any `AIMESSAGE` line is appended.  A non-stop turn
runs the chunker over the reply stream and appends
`f"AIMESSAGE: {response} \n"`. -/

/-- Python `str.strip()` whitespace class (ASCII part). -/
def pySpace (c : Char) : Bool :=
  c = ' ' || c = '\t' || c = '\n' || c = '\r' || c = '\x0b' || c = '\x0c'

/-- Python `str.strip()`: drop leading and trailing whitespace. -/
def pyStrip (s : List Char) : List Char :=
  ((s.dropWhile pySpace).reverse.dropWhile pySpace).reverse

/-- Python `str.lower()` (ASCII letters, which is all `"stop"` needs). -/
def pyLower (s : List Char) : List Char :=
  s.map Char.toLower

/-- The loop's exit test `transcript.strip().lower() == "stop"`. -/
def isStopUtterance (s : List Char) : Bool :=
  pyLower (pyStrip s) = "stop".toList

/-- `f"USERMESSAGE: {transcript} \n"`. -/
def userLine (u : List Char) : List Char :=
  "USERMESSAGE: ".toList ++ u ++ " \n".toList

/-- `f"AIMESSAGE: {response} \n"`. -/
def aiLine (r : List Char) : List Char :=
  "AIMESSAGE: ".toList ++ r ++ " \n".toList

/-- The `while True` loop of `session`, driven by the (finite prefix of
the) sequence of transcribed utterances, each paired with the reply stream
`converse` would yield for it.  `acc` is `long_transcript` so far. -/
def runSession (acc : List Char) : List (List Char × List StreamItem) → List Char
  | [] => acc
  | (u, items) :: rest =>
    let acc2 := acc ++ userLine u
    if isStopUtterance u then acc2
    else runSession (acc2 ++ aiLine (runChunker items).response) rest

/-! ## Database lookups of `server/database/database.py`

The `conversation_history` table is modelled as a list of rows.  A dict
result row is modelled as the row itself. -/

/-- One row of `conversation_history`. -/
structure ConvRow where
  id : Nat
  user_id : String
  session_date : String
  transcript : String
  created_at : Nat
deriving DecidableEq, Repr

/-- Insertion step for `ORDER BY created_at DESC`. -/
def insertByCreatedDesc (r : ConvRow) : List ConvRow → List ConvRow
  | [] => [r]
  | x :: xs =>
    if r.created_at ≤ x.created_at then x :: insertByCreatedDesc r xs
    else r :: x :: xs

/-- Sort rows by `created_at` descending (the `ORDER BY` of
`get_conversations_by_user`). -/
def sortByCreatedDesc : List ConvRow → List ConvRow
  | [] => []
  | r :: rs => insertByCreatedDesc r (sortByCreatedDesc rs)

/-- `DatabaseManager.get_conversations_by_user` (lines 81-113):
`SELECT ... WHERE user_id = ? ORDER BY created_at DESC LIMIT ?`, collected
into a list; with no matching rows the loop body never runs and the empty
list is returned. -/
def get_conversations_by_user (db : List ConvRow) (user_id : String)
    (limit : Nat := 10) : List ConvRow :=
  (sortByCreatedDesc (db.filter (fun r => r.user_id = user_id))).take limit

/-- `DatabaseManager.get_conversation_by_id` (lines 115-144):
`SELECT ... WHERE id = ?`, `fetchone()`; a missing row gives `None`. -/
def get_conversation_by_id (db : List ConvRow) (conversation_id : Nat) :
    Option ConvRow :=
  db.find? (fun r => r.id = conversation_id)

end AudioTutor

namespace AudioTutor

theorem searchBoundaryDollar_eq_ends (s : List Char) :
    searchBoundaryDollar s = endsBoundaryOrBoundaryNewline s := by
  induction s using List.reverseRecOn with
  | nil => rfl
  | append_singleton xs x _ =>
    simp only [searchBoundaryDollar, List.reverse_append, List.reverse_cons,
      List.reverse_nil, List.nil_append, List.cons_append,
      searchBoundaryDollarRev, endsBoundaryOrBoundaryNewline,
      List.getLast?_concat, List.dropLast_concat]
    cases hx : xs.reverse with
    | nil =>
      have : xs = [] := by
        have := congrArg List.reverse hx
        simpa using this
      subst this
      simp
    | cons y ys =>
      have hxs : xs.getLast? = some y := by
        rw [← List.head?_reverse, hx]
        rfl
      simp [hxs]

theorem step_preserves_concat_inv (st : ChunkState) (it : StreamItem)
    (h : st.response = st.emitted.flatten ++ st.chunk_response) :
    (step st it).response = (step st it).emitted.flatten ++ (step st it).chunk_response := by
  cases it with
  | other => exact h
  | aiMsg c =>
    simp only [step]
    split
    · simp [h]
    · simp [h]

theorem foldl_preserves_concat_inv (items : List StreamItem) :
    ∀ st : ChunkState, st.response = st.emitted.flatten ++ st.chunk_response →
      (items.foldl step st).response =
        (items.foldl step st).emitted.flatten ++ (items.foldl step st).chunk_response := by
  induction items with
  | nil => intro st h; exact h
  | cons it rest ih =>
    intro st h
    exact ih (step st it) (step_preserves_concat_inv st it h)

/-- Claim C8: after processing any prefix of the reply stream, the full
reply accumulator equals the concatenation of the chunks dispatched so far
followed by the pending chunk; hence the pending chunk is a suffix of the
full reply; and on each assistant fragment either a chunk (the pending text
plus the fragment) is dispatched and the pending buffer is reset to empty,
or nothing is dispatched and the pending buffer just grows by the
fragment. -/
theorem pending_chunk_suffix_invariant (items : List StreamItem) :
    ((runChunker items).response =
        (runChunker items).emitted.flatten ++ (runChunker items).chunk_response)
    ∧ List.IsSuffix (runChunker items).chunk_response (runChunker items).response
    ∧ (∀ st : ChunkState, ∀ c : List Char,
        ((step st (.aiMsg c)).emitted = st.emitted ++ [st.chunk_response ++ c]
          ∧ (step st (.aiMsg c)).chunk_response = [])
        ∨ ((step st (.aiMsg c)).emitted = st.emitted
          ∧ (step st (.aiMsg c)).chunk_response = st.chunk_response ++ c)) := by
  have hinv := foldl_preserves_concat_inv items initChunkState rfl
  refine ⟨hinv, ⟨(runChunker items).emitted.flatten, hinv.symm⟩, ?_⟩
  intro st c
  simp only [step]
  split
  · left; exact ⟨rfl, rfl⟩
  · right; exact ⟨rfl, rfl⟩

/-- Claim C1 (failing evaluation): a turn whose reply stream is the single
unterminated fragment `"Hi"` dispatches no chunk at all, so the
concatenation of emitted chunks is empty while the full reply text is
`"Hi"` — there is no final flush in the source, and trailing text is
dropped from synthesis. -/
theorem chunker_drops_unterminated_tail_eval :
    (runChunker [.aiMsg ['H', 'i']]).emitted.flatten = ([] : List Char)
    ∧ (runChunker [.aiMsg ['H', 'i']]).response = ['H', 'i'] := by
  decide

/-- Claim C2 (counterexample): on the single fragment `"Hi?\n"` a chunk is
emitted even though the last character of the accumulated reply is the
newline, which is not one of `.!?:;` — Python's `$` also matches just
before a final newline, so "emitted iff the last character is a boundary
character" is false as stated. -/
theorem boundary_last_char_iff_fails_on_trailing_newline :
    (runChunker [.aiMsg ['H', 'i', '?', '\n']]).emitted = [['H', 'i', '?', '\n']]
    ∧ (runChunker [.aiMsg ['H', 'i', '?', '\n']]).response.getLast? = some '\n'
    ∧ boundaryChar '\n' = false := by
  decide

/-- Claim C2 (amended): processing an assistant fragment dispatches exactly
one chunk (the pending text extended by the fragment) iff the accumulated
reply then ends with one of `.!?:;`, or ends with one of them followed by a
single trailing newline (the Python `re` `$` semantics); otherwise the
dispatched-chunk list is unchanged.  Emission is decided immediately on the
fragment being processed. -/
theorem chunk_emission_iff_boundary_or_boundary_newline (st : ChunkState) (c : List Char) :
    ((step st (.aiMsg c)).emitted =
      if endsBoundaryOrBoundaryNewline (st.response ++ c) then
        st.emitted ++ [st.chunk_response ++ c]
      else st.emitted)
    ∧ (step st (.aiMsg c)).response = st.response ++ c := by
  simp only [step, searchBoundaryDollar_eq_ends]
  split
  · exact ⟨rfl, rfl⟩
  · exact ⟨rfl, rfl⟩

/-- Claim C3 (failing evaluation): with fragments `"Hi."` and `" there"`,
the stream ends with the nonempty pending buffer `" there"`, but the
dispatched chunks remain just `["Hi."]` — no final chunk carrying the
leftover text is emitted, because no flush exists after the loop in either
transport. -/
theorem stream_end_leftover_not_flushed_eval :
    (runChunker [.aiMsg "Hi.".toList, .aiMsg " there".toList]).chunk_response = " there".toList
    ∧ (runChunker [.aiMsg "Hi.".toList, .aiMsg " there".toList]).emitted = ["Hi.".toList] := by
  decide

/-- Claim C4 (failing evaluation): when `save_conversation` raises, the
straight-line finalization block attempts nothing after it — transcript
indexing, report generation and report indexing are all skipped, because
there is no exception handler around any of the four calls. -/
theorem finalization_failure_not_isolated_eval :
    finalizationAttempted
        (fun e => match e with | .save_conversation => true | _ => false)
      = [FinEffect.save_conversation] := by
  decide

/-- Claim C5 (failing evaluation): if the synthesis dispatch raises on the
first emitted chunk of the stream `["Hi!", " Bye."]`, the exception
propagates out of the loop: the run ends in an error state whose full reply
is `"Hi!"`, the pending chunk is never reset, and the second fragment is
never processed, so the full reply does not equal the concatenation of all
fragments. -/
theorem synthesis_failure_aborts_turn_eval :
    runChunkerE (fun _ => true) [.aiMsg "Hi!".toList, .aiMsg " Bye.".toList]
      = Except.error ⟨"Hi!".toList, "Hi!".toList, []⟩
    ∧ "Hi!".toList ≠ "Hi!".toList ++ " Bye.".toList :=
  ⟨by rfl, by decide⟩

/-- Claim C6: a non-`AIMessage` stream item leaves the chunker state (both
accumulators and the dispatched-chunk list) completely unchanged, while an
`AIMessage` fragment always extends the full reply accumulator by its
content, and an `AIMessage` fragment can trigger a dispatch (witnessed by a
lone `"."` fragment). -/
theorem only_assistant_content_contributes :
    (∀ st : ChunkState, step st StreamItem.other = st)
    ∧ (∀ st : ChunkState, ∀ c : List Char,
        (step st (.aiMsg c)).response = st.response ++ c)
    ∧ (step initChunkState (.aiMsg ['.'])).emitted ≠ [] := by
  refine ⟨fun st => rfl, fun st c => ?_, by decide⟩
  simp only [step]
  split
  · rfl
  · rfl

/-- Claim C7: looking up a conversation id that matches no stored row
returns `none` rather than failing, and looking up a user with no stored
conversations returns the empty list rather than failing. -/
theorem missing_lookup_returns_absent :
    (∀ (db : List ConvRow) (cid : Nat), (∀ r ∈ db, r.id ≠ cid) →
      get_conversation_by_id db cid = none)
    ∧ (∀ (db : List ConvRow) (uid : String) (limit : Nat), (∀ r ∈ db, r.user_id ≠ uid) →
      get_conversations_by_user db uid limit = []) := by
  constructor
  · intro db cid h
    refine List.find?_eq_none.mpr ?_
    intro r hr
    simpa using h r hr
  · intro db uid limit h
    have hfil : db.filter (fun r => r.user_id = uid) = [] := by
      refine List.filter_eq_nil_iff.mpr ?_
      intro r hr
      simpa using h r hr
    simp [get_conversations_by_user, hfil, sortByCreatedDesc]

/-- Witness for claim C7 at a concrete database of one row. -/
theorem missing_lookup_returns_absent_witness :
    get_conversation_by_id [⟨1, "alice", "2025-01-01", "t", 0⟩] 2 = none
    ∧ get_conversations_by_user [⟨1, "alice", "2025-01-01", "t", 0⟩] "bob" 10 = [] :=
  ⟨missing_lookup_returns_absent.1 [⟨1, "alice", "2025-01-01", "t", 0⟩] 2 (by decide),
   missing_lookup_returns_absent.2 [⟨1, "alice", "2025-01-01", "t", 0⟩] "bob" 10 (by decide)⟩

/-- Claim C9: in the WebSocket transport's voice resolution, the codes
`"de-DE"` and `"it-IT"` hit a `KeyError` (the `language_codes` dict lists
`"German"` and `"Italian"` as keys with the codes as values), even though
voices for German and Italian exist, while the five other supported codes
all resolve to a voice. -/
theorem ws_speak_keyerror_on_german_italian_codes :
    ws_speak_voice "de-DE" = none
    ∧ ws_speak_voice "it-IT" = none
    ∧ (voices.lookup "German").isSome
    ∧ (voices.lookup "Italian").isSome
    ∧ (ws_speak_voice "en-UK").isSome
    ∧ (ws_speak_voice "fr-FR").isSome
    ∧ (ws_speak_voice "es-ES").isSome
    ∧ (ws_speak_voice "cmn-HANS-CN").isSome
    ∧ (ws_speak_voice "ja-JP").isSome := by
  decide

/-- Claim C10: in the terminal loop, every utterance — the terminating
`"stop"` included — is appended as a `USERMESSAGE` line before the stop
check, so a session ended by a stop utterance yields a transcript that ends
with that utterance's `USERMESSAGE` line, with no `AIMESSAGE` line after
it. -/
theorem transcript_ends_with_stop_usermessage (acc : List Char)
    (turns : List (List Char × List StreamItem)) (u : List Char)
    (its : List StreamItem) (rest : List (List Char × List StreamItem))
    (hpre : ∀ t ∈ turns, isStopUtterance t.1 = false)
    (hstop : isStopUtterance u = true) :
    ∃ p, runSession acc (turns ++ (u, its) :: rest) = p ++ userLine u := by
  induction turns generalizing acc with
  | nil =>
    refine ⟨acc, ?_⟩
    simp [runSession, hstop]
  | cons t ts ih =>
    have hne : isStopUtterance t.1 = false := hpre t (List.mem_cons_self t ts)
    obtain ⟨u1, i1⟩ := t
    simp only [List.cons_append, runSession, hne, Bool.false_eq_true, if_false]
    exact ih _ (fun x hx => hpre x (List.mem_cons_of_mem _ hx))

/-- Witness for claim C10: a one-turn session followed by the utterance
`"stop"`. -/
theorem transcript_ends_with_stop_usermessage_witness :
    ∃ p, runSession []
        ([(['h', 'i'], [StreamItem.aiMsg ['o', 'k', '.']])]
          ++ (['s', 't', 'o', 'p'], []) :: [])
      = p ++ userLine ['s', 't', 'o', 'p'] :=
  transcript_ends_with_stop_usermessage [] [(['h', 'i'], [StreamItem.aiMsg ['o', 'k', '.']])]
    ['s', 't', 'o', 'p'] [] [] (by decide) (by decide)

end AudioTutor
